import Mathlib

/-!
# Verification of the web-compliance-suite accessibility pipeline

Shallow embedding, in Lean 4, of the core of the accessibility audit
pipeline: the WCAG color-science library (luminance, contrast ratio,
color parsing), the effective-background resolver, the stable-ID
assigner, the suppression engine and the orchestrator's summary
computation.  Each definition is translated directly from the
corresponding JavaScript function; JS machine numbers are modelled as
`ℚ`/`ℝ`/`Int` with explicit wrapping where the code relies on 32-bit
coercions, JS `NaN` results of `parseInt` are modelled as `Option`,
and absent/`undefined` string fields are modelled as `""` (both are
falsy in the `||`/truthiness patterns the code uses, and only
truthiness of these fields is ever observed).
-/

namespace WCS

/-! ## Color science library (`getLuminance`, `getContrastRatio`)

From the WCAG contrast-ratio calculator: channel values are JS floats,
modelled as reals. -/

structure RGB where
  r : ℝ
  g : ℝ
  b : ℝ

/-- Per-channel sRGB linearization used by `getLuminance`:
`c/255`, then `c ≤ 0.03928 ? c/12.92 : ((c+0.055)/1.055)^2.4`. -/
noncomputable def linearizeChannel (c : ℝ) : ℝ :=
  let c' := c / 255
  if c' ≤ 0.03928 then c' / 12.92 else ((c' + 0.055) / 1.055) ^ (2.4 : ℝ)

/-- Source `getLuminance(r, g, b)`: relative luminance
`0.2126*rs + 0.7152*gs + 0.0722*bs`. -/
noncomputable def getLuminance (c : RGB) : ℝ :=
  0.2126 * linearizeChannel c.r + 0.7152 * linearizeChannel c.g
    + 0.0722 * linearizeChannel c.b

/-- Source `getContrastRatio(color1, color2) = (brightest + 0.05) / (darkest + 0.05)`
where `brightest`/`darkest` are the max/min of the two luminances. -/
noncomputable def getContrastRatio (c1 c2 : RGB) : ℝ :=
  (max (getLuminance c1) (getLuminance c2) + 0.05)
    / (min (getLuminance c1) (getLuminance c2) + 0.05)

/-- A color whose channels all lie in the JS byte range `[0, 255]`. -/
def channelsInRange (c : RGB) : Prop :=
  0 ≤ c.r ∧ c.r ≤ 255 ∧ 0 ≤ c.g ∧ c.g ≤ 255 ∧ 0 ≤ c.b ∧ c.b ≤ 255

/-! ## Touch-target spacing check (`checkTouchTargets`)

The pairwise-proximity loop compares the Euclidean distance between two
internal targets' positions against `100` and against `MIN_SPACING`. -/

/-- Source `const MIN_SPACING = 8` (minimum spacing between targets). -/
def MIN_SPACING : ℝ := 8

structure TouchTarget where
  left : ℝ
  top : ℝ

/-- Distance `Math.sqrt(dx*dx + dy*dy)` with `dx = t1.left - t2.left`,
`dy = t1.top - t2.top`. -/
noncomputable def targetDistance (t1 t2 : TouchTarget) : ℝ :=
  Real.sqrt ((t1.left - t2.left) * (t1.left - t2.left)
    + (t1.top - t2.top) * (t1.top - t2.top))

/-- The guard of the `touch_targets_too_close` finding, as written in the
source: `distance < 100 && distance < MIN_SPACING`. -/
def tooCloseGuard (t1 t2 : TouchTarget) : Prop :=
  targetDistance t1 t2 < 100 ∧ targetDistance t1 t2 < MIN_SPACING

/-- The condition as the spec describes the effective behavior: the check
fires exactly under 8px separation. -/
def tooCloseSpec (t1 t2 : TouchTarget) : Prop :=
  targetDistance t1 t2 < 8

/-! ## JS string primitives

JS strings are modelled as Lean `String`s (sequences of code points); the
UTF-16 view used by `charCodeAt` is recovered by `utf16Codes`.
`toLowerCase` is modelled by Lean's per-character `Char.toLower`, which
matches the JS behavior on the ASCII range. -/

/-- The character class of the JS regex `\s` (ECMAScript WhiteSpace plus
LineTerminator), by code point. -/
def isJsWs (c : Char) : Bool :=
  let n := c.toNat
  n == 0x9 || n == 0xA || n == 0xB || n == 0xC || n == 0xD || n == 0x20 ||
    n == 0xA0 || n == 0x1680 || (0x2000 ≤ n && n ≤ 0x200A) || n == 0x2028 ||
    n == 0x2029 || n == 0x202F || n == 0x205F || n == 0x3000 || n == 0xFEFF

/-- JS `String.prototype.replace(/\s+/g, ' ')`: each maximal run of `\s`
characters becomes a single space.  The boolean argument records whether
the previous character belonged to a whitespace run. -/
def collapseWsAux : Bool → List Char → List Char
  | _, [] => []
  | prevWs, c :: cs =>
    if isJsWs c then
      if prevWs then collapseWsAux true cs else ' ' :: collapseWsAux true cs
    else
      c :: collapseWsAux false cs

def collapseWs (l : List Char) : List Char := collapseWsAux false l

/-- JS `String.prototype.trim()`: drop `\s` characters from both ends. -/
def jsTrim (l : List Char) : List Char :=
  ((l.dropWhile isJsWs).reverse.dropWhile isJsWs).reverse

/-- JS `String.prototype.toLowerCase()` (per-character, ASCII behavior). -/
def jsLower (s : String) : String := ⟨s.data.map Char.toLower⟩

/-- The `norm` helper of `addStableIds`:
`(s || '').toString().replace(/\s+/g, ' ').trim().toLowerCase()`. -/
def jsNorm (s : String) : String :=
  ⟨(jsTrim (collapseWs s.data)).map Char.toLower⟩

/-- The UTF-16 code units of a string, as read by `charCodeAt`:
BMP code points are themselves, larger ones become surrogate pairs. -/
def utf16Codes : List Char → List Nat
  | [] => []
  | c :: cs =>
    (if c.toNat < 0x10000 then [c.toNat]
     else [0xD800 + (c.toNat - 0x10000) / 0x400,
           0xDC00 + (c.toNat - 0x10000) % 0x400]) ++ utf16Codes cs

/-! ## Stable-ID assigner (`addStableIds`) -/

/-- JS `ToInt32`: reduce an integer to the signed 32-bit range, as the
`<<` operator does to its operands and result. -/
def toInt32 (n : Int) : Int := (n + 2 ^ 31) % 2 ^ 32 - 2 ^ 31

/-- JS `ToUint32`, used by `h >>> 0`. -/
def toUint32 (n : Int) : Nat := (n % 2 ^ 32).toNat

/-- One step of the hash loop: `h = ((h << 5) + h) + str.charCodeAt(i)`.
The shift coerces through 32 bits; the additions are exact (JS doubles
hold these values exactly). -/
def djb2Step (h : Int) (code : Nat) : Int :=
  toInt32 (toInt32 h * 32) + h + code

/-- The `hash` helper of `addStableIds`: djb2 starting from `5381`. -/
def djb2 (codes : List Nat) : Int := codes.foldl djb2Step 5381

/-- Hex digit in lowercase, as produced by `Number.prototype.toString(16)`. -/
def hexDigit (n : Nat) : Char :=
  if n < 10 then Char.ofNat (48 + n) else Char.ofNat (87 + n)

/-- Rendering `('00000000' + (h >>> 0).toString(16)).slice(-8)`: the unsigned hash
rendered as exactly 8 lowercase hex characters. -/
def toHex8 (n : Nat) : String :=
  ⟨(List.range 8).map fun i => hexDigit (n / 16 ^ (7 - i) % 16)⟩

/-- The full `hash` helper: djb2 over the code units, forced unsigned,
rendered as 8 hex characters. -/
def stableHash (s : String) : String := toHex8 (toUint32 (djb2 (utf16Codes s.data)))

/-- Source `makeId(cat, type, selector, text)` of `addStableIds` (with the page
`url` in scope): hash of the normalized components joined by `'|'`. -/
def makeId (url cat ty selector text : String) : String :=
  stableHash (String.intercalate "|"
    [jsNorm url, jsNorm cat, jsNorm ty, jsNorm selector, jsNorm text])

/-! ## Suppression engine (`ignore.js`: `isExpired`, `urlMatches`,
`shouldIgnore`)

Rule and issue fields that the code reads through `||`/truthiness are
strings with `""` standing for both `undefined` and the empty string
(the code never distinguishes them).  `expires` is `none` when the field
is absent, `some none` when `new Date(expires)` is invalid (`+d` is
`NaN`, `Number.isFinite` fails), and `some (some t)` for a parseable
date with timestamp `t`; the current clock is an explicit `now`
parameter. -/

/-- Does `l` start with `p`?
(JS `String.prototype.startsWith`.) -/
def listStarts : List Char → List Char → Bool
  | _, [] => true
  | [], _ :: _ => false
  | a :: as, b :: bs => a == b && listStarts as bs

/-- JS `String.prototype.includes`: does `l` contain `sub` as a contiguous
substring? -/
def listHasSub : List Char → List Char → Bool
  | [], sub => sub == []
  | a :: t, sub => listStarts (a :: t) sub || listHasSub t sub

def jsStartsWith (s p : String) : Bool := listStarts s.data p.data

def jsEndsWith (s p : String) : Bool := listStarts s.data.reverse p.data.reverse

structure IgnoreRule where
  id : String := ""
  scope : String := ""
  pattern : String := ""
  category : String := ""
  type : String := ""
  severityAtMost : String := ""
  selector : String := ""
  textIncludes : String := ""
  expires : Option (Option Int) := none
deriving DecidableEq

/-- The normalized issue view consumed by `shouldIgnore`
(`{ id, url, category, type, severity, selector, text }`). -/
structure IssueRec where
  id : String := ""
  url : String := ""
  category : String := ""
  type : String := ""
  severity : String := ""
  selector : String := ""
  text : String := ""
deriving DecidableEq

/-- Source `isExpired(expires)`: absent or unparseable dates never expire;
a parsed date expires when it is before `now`. -/
def isExpired : Option (Option Int) → Int → Bool
  | none, _ => false
  | some none, _ => false
  | some (some d), now => d < now

structure URLRec where
  hostname : String
  href : String
deriving DecidableEq

/-- Outcome of the modelled platform URL parse: `throws` only where
`new URL(url)` certainly throws, `ok u` only where it certainly returns a
record with `u`'s `hostname` and `href`, and `outside` where the input
falls outside the modelled fragment and the model asserts nothing. -/
inductive URLOutcome where
  | throws : URLOutcome
  | ok : URLRec → URLOutcome
  | outside : URLOutcome
deriving DecidableEq

/-- C0 controls and space, trimmed from both URL ends by the platform. -/
def isC0OrSpace (c : Char) : Bool := c.toNat ≤ 0x20

/-- ASCII tab and newlines, removed everywhere by the platform parser. -/
def isTabOrNewline (c : Char) : Bool :=
  c.toNat == 0x9 || c.toNat == 0xA || c.toNat == 0xD

/-- Characters allowed after the first in a URL scheme. -/
def isSchemeChar (c : Char) : Bool :=
  c.isAlpha || c.isDigit || c == '+' || c == '-' || c == '.'

/-- Host characters of the modelled fragment: ASCII letters, digits,
dots, hyphens and underscores are serialized unchanged (modulo
lowercasing); anything else (IDNA, percent-encoding, IPv6 brackets) is
outside the model. -/
def isHostChar (c : Char) : Bool :=
  c.isAlpha || c.isDigit || c == '.' || c == '-' || c == '_'

/-- Userinfo characters of the modelled fragment (serialized unchanged). -/
def isUserinfoChar (c : Char) : Bool :=
  c.isAlpha || c.isDigit || c == '.' || c == '-' || c == '_'

/-- Path/query/fragment characters that WHATWG `href` serialization keeps
verbatim in all three components. -/
def isTailSafeChar (c : Char) : Bool :=
  c.isAlpha || c.isDigit || c == '/' || c == '?' || c == '#' || c == '&' ||
    c == '=' || c == '.' || c == '_' || c == '~' || c == '-'

/-- Split a character list on a separator character. -/
def splitOnChar (sep : Char) : List Char → List (List Char)
  | [] => [[]]
  | c :: rest =>
    if c == sep then [] :: splitOnChar sep rest
    else
      match splitOnChar sep rest with
      | [] => [[c]]
      | l0 :: ls => (c :: l0) :: ls

/-- Decimal digits of a bounded number (ports are at most 65535). -/
def natDecimalAux : Nat → Nat → List Char
  | _, 0 => []
  | n, fuel + 1 =>
    if n < 10 then [hexDigit n]
    else natDecimalAux (n / 10) fuel ++ [hexDigit (n % 10)]

def natDecimal (n : Nat) : List Char := natDecimalAux n 6

/-- Is a (lowercased) host serialized verbatim by the platform?  WHATWG
runs its IPv4 parser when the last label is numeric or `0x`-prefixed,
which normalizes or rejects the host, so the model keeps a numeric
ending only as a canonical dotted quad (four plain decimal labels at
most 255, no leading zeros, no trailing dot); empty labels other than a
trailing dot are outside the model. -/
def hostInModel (host : List Char) : Bool :=
  let labs := splitOnChar '.' host
  if labs.dropLast.any List.isEmpty then false
  else
    let trailingDot := labs.getLast?.getD [] == ([] : List Char)
    let labs2 := if trailingDot then labs.dropLast else labs
    match labs2.getLast? with
    | none => false
    | some lastLab =>
      let isNum := lastLab.all Char.isDigit
      let is0x := match lastLab with
        | '0' :: 'x' :: _ => true
        | '0' :: 'X' :: _ => true
        | _ => false
      if isNum || is0x then
        !trailingDot && labs2.length == 4 &&
          labs2.all fun lab =>
            !lab.isEmpty && lab.all Char.isDigit &&
              decide (lab.foldl (fun acc c => acc * 10 + (c.toNat - 48)) 0 ≤ 255) &&
              (lab == ['0'] || lab.head?.getD '0' != '0')
      else true

/-- Port part of the authority: `none` on a certain platform parse
failure (non-digit port characters or a value above 65535), `some none`
for an absent or empty port, `some (some v)` for port value `v`. -/
def parsePort (portPart : List Char) : Option (Option Nat) :=
  match portPart with
  | [] => some none
  | ':' :: ds =>
    if ds.isEmpty then some none
    else if ds.all Char.isDigit then
      let v := ds.foldl (fun acc c => acc * 10 + (c.toNat - 48)) 0
      if v ≤ 65535 then some (some v) else none
    else none
  | _ => some none

/-- Is the path/query/fragment tail serialized verbatim?  Requires safe
characters only (this excludes backslashes, which the platform converts
to slashes) and no `.`/`..` path segments (which it collapses). -/
def tailInModel (tail : List Char) : Bool :=
  tail.all isTailSafeChar &&
    !((splitOnChar '/' (tail.takeWhile fun c => !(c == '?' || c == '#'))).any
      fun seg => seg == ['.'] || seg == ['.', '.'])

/-- Modelled from the spec: the authority-and-tail parse of an absolute
`http`/`https` URL after its scheme, per the WHATWG URL Standard the
platform `new URL` implements.  Leading slashes and backslashes are
skipped (`http:foo.com` and `http://foo.com` agree); the authority runs
to the first `/`, `\\`, `?` or `#`; an optional userinfo precedes the
last `@`; the host is lowercased and an optional `:port` is elided when
it equals the scheme default, with an empty path serialized as `/`.
`throws` is returned only where the platform certainly fails (empty
host, bad port); userinfo/host/tail shapes whose serialization the model
does not capture are `outside`. -/
def parseSpecialHttp (scheme : String) (defaultPort : Nat)
    (rest : List Char) : URLOutcome :=
  let rest2 := rest.dropWhile fun c => c == '/' || c == '\\'
  let authority := rest2.takeWhile fun c =>
    !(c == '/' || c == '\\' || c == '?' || c == '#')
  let tail := rest2.drop authority.length
  let hostport := (authority.reverse.takeWhile fun c => !(c == '@')).reverse
  let hasAt := hostport.length != authority.length
  let userinfo := authority.take (authority.length - hostport.length - 1)
  let userinfoOk := !userinfo.isEmpty &&
    userinfo.all (fun c => isUserinfoChar c || c == ':') &&
    decide ((userinfo.filter fun c => c == ':').length ≤ 1) &&
    userinfo.head?.getD ':' != ':' && userinfo.getLast?.getD ':' != ':'
  if hasAt && !userinfoOk then .outside
  else
    let hostRaw := hostport.takeWhile fun c => !(c == ':')
    if hostRaw.isEmpty then .throws
    else if !hostRaw.all isHostChar then .outside
    else
      let host := hostRaw.map Char.toLower
      if !hostInModel host then .outside
      else
        match parsePort (hostport.drop hostRaw.length) with
        | none => .throws
        | some port =>
          if !tailInModel tail then .outside
          else
            let portSer : List Char := match port with
              | none => []
              | some v => if v == defaultPort then [] else ':' :: natDecimal v
            let path := tail.takeWhile fun c => !(c == '?' || c == '#')
            let pathAndRest := if path.isEmpty then '/' :: tail else tail
            .ok ⟨⟨host⟩,
              ⟨scheme.data ++ "://".data ++
                (if hasAt then userinfo ++ ['@'] else []) ++
                host ++ portSer ++ pathAndRest⟩⟩

/-- Modelled from the spec: classification of the platform `new URL(url)`
behavior, which the repository calls but does not implement.  After
removing tab/newline characters and trimming C0 controls and spaces (as
the platform does), a string with no valid scheme prefix certainly
throws (it would be a relative URL with no base); `http`/`https` URLs go
through `parseSpecialHttp`; every other scheme is `outside` the model. -/
def parseURLCore (s : String) : URLOutcome :=
  let cleaned := s.data.filter fun c => !isTabOrNewline c
  let trimmed := ((cleaned.dropWhile isC0OrSpace).reverse.dropWhile
    isC0OrSpace).reverse
  match trimmed with
  | [] => .throws
  | c :: _ =>
    if !c.isAlpha then .throws
    else
      let schemeChars := trimmed.takeWhile isSchemeChar
      match trimmed.drop schemeChars.length with
      | ':' :: rest =>
        let scheme := schemeChars.map Char.toLower
        if scheme == "http".data then parseSpecialHttp "http" 80 rest
        else if scheme == "https".data then parseSpecialHttp "https" 443 rest
        else .outside
      | _ => .throws

/-- Completion of the modelled parser by an arbitrary behavior `ext` on
the unmodelled region (`none` = the constructor throws there).  The
theorems below quantify over `ext`, so they assert nothing about inputs
the model does not decide; the platform parser is one such completion. -/
def parseURLWith (ext : String → Option URLRec) (s : String) :
    Option URLRec :=
  match parseURLCore s with
  | .throws => none
  | .ok u => some u
  | .outside => ext s

/-- The modelled parser with the unmodelled region mapped to `none`,
used only to state closed witnesses and counterexamples at inputs that
`parseURLCore` decides, where every completion agrees. -/
def parseURLModel : String → Option URLRec := parseURLWith fun _ => none

/-- Source `urlMatches(rule, url)`: parse the URL (a throwing constructor
is caught, `return false`), then dispatch on the rule's scope.  The URL
parser is an explicit parameter; the program instantiates it with the
platform's. -/
def urlMatches (parse : String → Option URLRec) (r : IgnoreRule)
    (url : String) : Bool :=
  match parse url with
  | none => false
  | some u =>
    if r.scope = "global" then true
    else if r.scope = "domain" then
      u.hostname == r.pattern || jsEndsWith u.hostname ("." ++ r.pattern)
    else if r.scope = "url" then jsStartsWith u.href r.pattern
    else false

/-- Source `const sevOrder = \x7b low: 1, medium: 2, high: 3, critical: 4 \x7d`;
indexing with any other key gives `undefined` (`none`). -/
def sevOrder (s : String) : Option Nat :=
  if s = "low" then some 1
  else if s = "medium" then some 2
  else if s = "high" then some 3
  else if s = "critical" then some 4
  else none

/-- JS `<=` on possibly-`undefined` numbers: any comparison involving
`undefined` (`NaN`) is false. -/
def jsLeOpt : Option Nat → Option Nat → Bool
  | some a, some b => a ≤ b
  | _, _ => false

/-- Source `r.id && issue.id && String(r.id).toLowerCase() ===
String(issue.id).toLowerCase()`. -/
def idMatchOk (r : IgnoreRule) (issue : IssueRec) : Bool :=
  !(r.id == "") && !(issue.id == "") && jsLower r.id == jsLower issue.id

/-- Source `catOk = !r.category || r.category === '*' || r.category === issue.category`. -/
def catOk (r : IgnoreRule) (issue : IssueRec) : Bool :=
  r.category == "" || r.category == "*" || r.category == issue.category

/-- Source `typeOk = !r.type || r.type === '*' || r.type === issue.type`. -/
def typeOk (r : IgnoreRule) (issue : IssueRec) : Bool :=
  r.type == "" || r.type == "*" || r.type == issue.type

/-- Source `sevOk = !r.severityAtMost || sevOrder[issue.severity || 'medium'] <=
sevOrder[r.severityAtMost] || r.severityAtMost === '*'`. -/
def sevOk (r : IgnoreRule) (issue : IssueRec) : Bool :=
  r.severityAtMost == "" ||
    jsLeOpt (sevOrder (if issue.severity == "" then "medium" else issue.severity))
      (sevOrder r.severityAtMost) ||
    r.severityAtMost == "*"

/-- Source `selOk = !r.selector || (issue.selector || '').includes(r.selector)`. -/
def selOk (r : IgnoreRule) (issue : IssueRec) : Bool :=
  r.selector == "" || listHasSub issue.selector.data r.selector.data

/-- Source `textOk = !r.textIncludes || (issue.text ||
'').toLowerCase().includes(String(r.textIncludes).toLowerCase())`. -/
def textOk (r : IgnoreRule) (issue : IssueRec) : Bool :=
  r.textIncludes == "" ||
    listHasSub (jsLower issue.text).data (jsLower r.textIncludes).data

/-- Source `shouldIgnore(issue, rules)`: first-match-wins loop over the rules,
with `continue` modelled as recursion on the remaining rules.  The URL
parser used by the scope check is threaded through explicitly. -/
def shouldIgnore (parse : String → Option URLRec) (issue : IssueRec) :
    List IgnoreRule → Int → Bool
  | [], _ => false
  | r :: rest, now =>
    if isExpired r.expires now then shouldIgnore parse issue rest now
    else if idMatchOk r issue then true
    else if !urlMatches parse r issue.url then shouldIgnore parse issue rest now
    else if !catOk r issue then shouldIgnore parse issue rest now
    else if !typeOk r issue then shouldIgnore parse issue rest now
    else if !sevOk r issue then shouldIgnore parse issue rest now
    else if !selOk r issue then shouldIgnore parse issue rest now
    else if !textOk r issue then shouldIgnore parse issue rest now
    else true

/-! ## Orchestrator: suppression marking and summary
(`applyIgnoreRules`, `calculateSummary`)

Findings are flattened: the optional nested objects
(`issue.context?.selector`, `issue.elementDetails?.textContent`, ...) read
through `||`-chains become string fields with `""` for an absent value. -/

/-- JS `a || b` on strings, where only `""`/`undefined` are falsy. -/
def jsOr (a b : String) : String := if a == "" then b else a

structure CatIssue where
  type : String := ""
  severity : String := ""
  ignored : Bool := false
  id : String := ""
  contextSelector : String := ""
  elementDetailsSelector : String := ""
  elementContextSelector : String := ""
  contextTextSample : String := ""
  elementDetailsTextContent : String := ""
  text : String := ""
  message : String := ""
deriving DecidableEq

structure ContrastCombo where
  status : String := ""
  ignored : Bool := false
  id : String := ""
  elementDetailsSelector : String := ""
  contextSelector : String := ""
  sampleText : String := ""
deriving DecidableEq

/-- The audit results object as seen by `applyIgnoreRules` and
`calculateSummary`: the issue lists of the eight fixed categories (with
their names, `none` when a category has no `issues` array), the
`manualReview` issues, and the `colorContrast` entries. -/
structure AuditResults where
  categories : List (String × Option (List CatIssue))
  manualReview : Option (List CatIssue)
  colorContrast : List ContrastCombo
deriving DecidableEq

/-- Source `normIssue(category, issue)` of `applyIgnoreRules` (with
`fallback = \x7b\x7d`): the `||`-chains over the flattened optional fields. -/
def normIssue (pageUrl category : String) (issue : CatIssue) : IssueRec :=
  { id := issue.id
    url := pageUrl
    category := category
    type := jsOr issue.type "unspecified"
    severity := jsLower (jsOr issue.severity "medium")
    selector := jsOr issue.contextSelector
      (jsOr issue.elementDetailsSelector issue.elementContextSelector)
    text := jsOr issue.contextTextSample
      (jsOr issue.elementDetailsTextContent (jsOr issue.text issue.message)) }

/-- The normalized view of a `colorContrast` entry built inline by
`applyIgnoreRules` for `FAIL` entries. -/
def comboNorm (pageUrl : String) (combo : ContrastCombo) : IssueRec :=
  { id := combo.id
    url := pageUrl
    category := "colorContrast"
    type := "contrast_failure"
    severity := "critical"
    selector := jsOr combo.elementDetailsSelector combo.contextSelector
    text := combo.sampleText }

/-- Source `applyIgnoreRules()`: mark `ignored := true` on every category
and manual-review issue matched by `shouldIgnore`, and on every
`colorContrast` entry with `status === 'FAIL'` matched by `shouldIgnore`
(non-`FAIL` entries are skipped by the `continue`). -/
def applyIgnoreRules (parse : String → Option URLRec) (pageUrl : String)
    (rules : List IgnoreRule) (now : Int) (r : AuditResults) : AuditResults :=
  { categories := r.categories.map fun nc =>
      (nc.1, nc.2.map (List.map fun issue =>
        if shouldIgnore parse (normIssue pageUrl nc.1 issue) rules now then
          { issue with ignored := true }
        else issue))
    manualReview := r.manualReview.map (List.map fun issue =>
      if shouldIgnore parse (normIssue pageUrl "manualReview" issue) rules now then
        { issue with ignored := true }
      else issue)
    colorContrast := r.colorContrast.map fun combo =>
      if combo.status == "FAIL" then
        if shouldIgnore parse (comboNorm pageUrl combo) rules now then
          { combo with ignored := true }
        else combo
      else combo }

/-- The four counters accumulated by `calculateSummary`. -/
structure Tally where
  totalIssues : Nat
  criticalIssues : Nat
  warnings : Nat
  passes : Nat
deriving DecidableEq

/-- The per-issue increment of `calculateSummary`: skip when `ignored`,
else bump `totalIssues` and exactly one of
`criticalIssues`/`warnings`/`passes` by severity. -/
def tallyIssue (acc : Tally) (issue : CatIssue) : Tally :=
  if issue.ignored then acc
  else
    let acc1 := { acc with totalIssues := acc.totalIssues + 1 }
    if issue.severity == "critical" then
      { acc1 with criticalIssues := acc1.criticalIssues + 1 }
    else if issue.severity == "medium" || issue.severity == "high" then
      { acc1 with warnings := acc1.warnings + 1 }
    else
      { acc1 with passes := acc1.passes + 1 }

/-- The per-`colorContrast`-entry increment of `calculateSummary`:
`FAIL` entries count as critical issues unless `ignored` (the `ignored`
check sits inside the `FAIL` branch only); `PASS` entries bump `passes`
unconditionally. -/
def tallyCombo (acc : Tally) (combo : ContrastCombo) : Tally :=
  if combo.status == "FAIL" then
    if combo.ignored then acc
    else { acc with totalIssues := acc.totalIssues + 1,
                    criticalIssues := acc.criticalIssues + 1 }
  else if combo.status == "PASS" then { acc with passes := acc.passes + 1 }
  else acc

/-- One category's contribution to the fold: skipped entirely when the
category has no `issues` array. -/
def tallyCategory (acc : Tally) (nc : String × Option (List CatIssue)) : Tally :=
  match nc.2 with
  | none => acc
  | some issues => issues.foldl tallyIssue acc

structure Summary where
  totalIssues : Nat
  criticalIssues : Nat
  warnings : Nat
  passes : Nat
  complianceLevel : String
deriving DecidableEq

/-- Source `calculateSummary()`: fold the eight category issue lists, then
the `colorContrast` entries, and derive `complianceLevel` from
`criticalIssues === 0`. -/
def calculateSummary (r : AuditResults) : Summary :=
  let t := r.colorContrast.foldl tallyCombo
    (r.categories.foldl tallyCategory ⟨0, 0, 0, 0⟩)
  ⟨t.totalIssues, t.criticalIssues, t.warnings, t.passes,
    if t.criticalIssues == 0 then "WCAG AA Compliant" else "Needs Improvement"⟩

/-- Removal of every finding whose `ignored` flag is set — the reference
point for "the summary counts only non-ignored findings". -/
def dropIgnored (r : AuditResults) : AuditResults :=
  { categories := r.categories.map fun nc =>
      (nc.1, nc.2.map fun issues => issues.filter fun i => !i.ignored)
    manualReview := r.manualReview.map fun issues =>
      issues.filter fun i => !i.ignored
    colorContrast := r.colorContrast.filter fun c => !c.ignored }

/-- A fresh audit state: no finding has its `ignored` flag set yet (the
check modules create findings without the flag). -/
def noIgnoredFlags (r : AuditResults) : Prop :=
  (∀ nc ∈ r.categories, ∀ l, nc.2 = some l → ∀ i ∈ l, i.ignored = false) ∧
    (∀ c ∈ r.colorContrast, c.ignored = false)

/-- Componentwise sum of tallies (proof-side bookkeeping for the fold
lemmas). -/
def tAdd (a b : Tally) : Tally :=
  ⟨a.totalIssues + b.totalIssues, a.criticalIssues + b.criticalIssues,
    a.warnings + b.warnings, a.passes + b.passes⟩

/-! ## Effective background resolver (`getEffectiveBackground`)

Colors here are the `{r, g, b, a}` records produced by `parseRGBA`;
channel arithmetic is exact in the model (`ℚ`), with `Math.round`
modelled as `⌊x + 1/2⌋`.  An element of the ancestor chain is reduced to
the two computed-style reads the resolver performs: whether
`background-image` is set and not `'none'`, and the `parseRGBA` result of
`background-color` (`none` when the parse fails). -/

structure RGBA where
  r : ℚ
  g : ℚ
  b : ℚ
  a : ℚ
deriving DecidableEq

/-- Source `clamp01 = (x) => Math.max(0, Math.min(1, x))`. -/
def clamp01 (x : ℚ) : ℚ := max 0 (min 1 x)

/-- JS `Math.round` on the rationals arising here: `⌊x + 1/2⌋`. -/
def jsRound (x : ℚ) : ℚ := (⌊x + 1/2⌋ : ℚ)

/-- Source `blend(top, bottom)`: standard "over" compositing with rounded
channels; the output alpha `outA = aTop + aBottom*(1 - aTop)`, dividing
channels by `outA || 1`. -/
def blend (top bottom : RGBA) : RGBA :=
  let aTop := clamp01 top.a
  let aBottom := clamp01 bottom.a
  let outA := aTop + aBottom * (1 - aTop)
  let denom := if outA = 0 then 1 else outA
  ⟨jsRound ((top.r * aTop + bottom.r * aBottom * (1 - aTop)) / denom),
    jsRound ((top.g * aTop + bottom.g * aBottom * (1 - aTop)) / denom),
    jsRound ((top.b * aTop + bottom.b * aBottom * (1 - aTop)) / denom),
    outA⟩

/-- The two computed-style reads the resolver makes per visited element. -/
structure ElemStyle where
  hasBgImage : Bool
  bgColor : Option RGBA
deriving DecidableEq

/-- Default white `{ r: 255, g: 255, b: 255, a: 1 }`. -/
def whiteRGBA : RGBA := ⟨255, 255, 255, 1⟩

/-- The ancestor walk of `getEffectiveBackground`: starting from the
element itself, while an element remains and `safety < 30`, bail out with
`none` on a background image, blend a parsed background color onto the
accumulator, and break once accumulated alpha reaches `0.999`. -/
def bgWalk : List ElemStyle → RGBA → Nat → Option RGBA
  | _, acc, 0 => some acc
  | [], acc, _ + 1 => some acc
  | e :: rest, acc, fuel + 1 =>
    if e.hasBgImage then none
    else
      match e.bgColor with
      | some bg =>
        let acc2 := blend bg acc
        if 999/1000 ≤ acc2.a then some acc2 else bgWalk rest acc2 fuel
      | none => bgWalk rest acc fuel

/-- The prefix of the chain the walk actually visits (same recursion as
`bgWalk`; the element that triggers the image bail-out or the opacity
break is the last one visited). -/
def bgVisited : List ElemStyle → RGBA → Nat → List ElemStyle
  | _, _, 0 => []
  | [], _, _ + 1 => []
  | e :: rest, acc, fuel + 1 =>
    if e.hasBgImage then [e]
    else
      match e.bgColor with
      | some bg =>
        let acc2 := blend bg acc
        if 999/1000 ≤ acc2.a then [e] else e :: bgVisited rest acc2 fuel
      | none => e :: bgVisited rest acc fuel

/-- Source `getEffectiveBackground(el)`: run the walk from a transparent
accumulator; on bail-out return `null`; otherwise composite the
document/body background (`parseRGBA(...) || white` each) as a final
layer when accumulated alpha is still below `0.999`, and force `a = 1`. -/
def getEffectiveBackground (chain : List ElemStyle)
    (htmlBg bodyBg : Option RGBA) : Option RGBA :=
  match bgWalk chain ⟨0, 0, 0, 0⟩ 30 with
  | none => none
  | some acc =>
    let acc2 := if acc.a < 999/1000 then
        blend acc (blend (bodyBg.getD whiteRGBA) (htmlBg.getD whiteRGBA))
      else acc
    some { acc2 with a := 1 }

/-! ## Color string parsing (`parseColor`, `parseHex`, `parseRGB`,
`parseHSL`, `parseNamedColor`)

Channels are JS numbers that may be `NaN` (from `parseInt` on non-hex
input), modelled as `Option Int` with `none` for `NaN`.  The regex
searches of `String.prototype.match` are modelled by trying the pattern
at every start position; the patterns involved are deterministic (each
optional/greedy piece is followed by a character it can never consume),
so no further backtracking is needed. -/

/-- Value of one hexadecimal digit, as accepted by `parseInt(_, 16)`. -/
def hexDigitVal (c : Char) : Option Nat :=
  if '0' ≤ c ∧ c ≤ '9' then some (c.toNat - 48)
  else if 'a' ≤ c ∧ c ≤ 'f' then some (c.toNat - 87)
  else if 'A' ≤ c ∧ c ≤ 'F' then some (c.toNat - 55)
  else none

/-- Accumulate the longest leading run of hex digits; `none` (JS `NaN`)
when there is none. -/
def hexValAux : List Char → Nat → Bool → Option Nat
  | [], acc, seen => if seen then some acc else none
  | c :: cs, acc, seen =>
    match hexDigitVal c with
    | some d => hexValAux cs (acc * 16 + d) true
    | none => if seen then some acc else none

/-- Strip a `0x`/`0X` prefix, as `parseInt(_, 16)` does. -/
def strip0x : List Char → List Char
  | '0' :: 'x' :: rest => rest
  | '0' :: 'X' :: rest => rest
  | l => l

/-- JS `parseInt(s, 16)`: skip whitespace, optional sign, optional
`0x`/`0X`, then the longest run of hex digits (`none` = `NaN` when that
run is empty). -/
def jsParseInt16 (l : List Char) : Option Int :=
  match l.dropWhile isJsWs with
  | '-' :: rest => (hexValAux (strip0x rest) 0 false).map fun n => -(n : Int)
  | '+' :: rest => (hexValAux (strip0x rest) 0 false).map fun n => (n : Int)
  | rest => (hexValAux (strip0x rest) 0 false).map fun n => (n : Int)

/-- JS `String.prototype.replace('#', '')`: remove the first `#`. -/
def removeFirstHash : List Char → List Char
  | [] => []
  | c :: cs => if c == '#' then cs else c :: removeFirstHash cs

/-- Source `parseHex(hexString)`: strip the first `#`; 3-digit colors are
nibble-doubled, 6-digit colors split into pairs, anything else is `null`.
Each pair goes through `parseInt(_, 16)` and may come out `NaN`. -/
def parseHex (hexString : String) : Option (List (Option Int)) :=
  match removeFirstHash hexString.data with
  | [c0, c1, c2] =>
    some [jsParseInt16 [c0, c0], jsParseInt16 [c1, c1], jsParseInt16 [c2, c2]]
  | [c0, c1, c2, c3, c4, c5] =>
    some [jsParseInt16 [c0, c1], jsParseInt16 [c2, c3], jsParseInt16 [c4, c5]]
  | _ => none

/-- Consume an exact literal. -/
def afterLit : List Char → List Char → Option (List Char)
  | l, [] => some l
  | [], _ :: _ => none
  | a :: as, b :: bs => if a == b then afterLit as bs else none

/-- Numeric value of a nonempty leading digit run (`\d+` followed by
`parseInt`), with the rest of the input. -/
def takeDigits1 (l : List Char) : Option (Nat × List Char) :=
  let ds := l.takeWhile Char.isDigit
  if ds = [] then none
  else some (ds.foldl (fun acc c => acc * 10 + (c.toNat - 48)) 0, l.drop ds.length)

/-- The optional trailing alpha group `(?:,\s*[\d.]+)?` of the
`rgba?`/`hsla?` regexes. -/
def matchOptAlpha (l : List Char) : Option (List Char) :=
  match l with
  | ',' :: rest =>
    let rest2 := rest.dropWhile isJsWs
    let ds := rest2.takeWhile fun c => c.isDigit || c == '.'
    if ds = [] then none else some (rest2.drop ds.length)
  | _ => some l

/-- Match `rgba?\((\d+),\s*(\d+),\s*(\d+)(?:,\s*[\d.]+)?\)` at the
start of the input. -/
def matchRGBAt (l : List Char) : Option (Nat × Nat × Nat) := do
  let l ← afterLit l "rgb".data
  let l := match l with
    | 'a' :: r => r
    | _ => l
  let l ← afterLit l "(".data
  let (r, l) ← takeDigits1 l
  let l ← afterLit l ",".data
  let (g, l) ← takeDigits1 (l.dropWhile isJsWs)
  let l ← afterLit l ",".data
  let (b, l) ← takeDigits1 (l.dropWhile isJsWs)
  let l ← matchOptAlpha l
  let _ ← afterLit l ")".data
  return (r, g, b)

/-- Unanchored regex search for the `rgb` pattern. -/
def searchRGB : List Char → Option (Nat × Nat × Nat)
  | [] => matchRGBAt []
  | c :: t =>
    match matchRGBAt (c :: t) with
    | some x => some x
    | none => searchRGB t

/-- Source `parseRGB(rgbString)` (the `rgba`-aware version). -/
def parseRGB (rgbString : String) : Option (List (Option Int)) :=
  (searchRGB rgbString.data).map fun x =>
    [some (x.1 : Int), some (x.2.1 : Int), some (x.2.2 : Int)]

/-- Source `hue2rgb(p, q, t)` of `parseHSL`. -/
def hue2rgb (p q t : ℚ) : ℚ :=
  let t1 := if t < 0 then t + 1 else t
  let t2 := if t1 > 1 then t1 - 1 else t1
  if t2 < 1/6 then p + (q - p) * 6 * t2
  else if t2 < 1/2 then q
  else if t2 < 2/3 then p + (q - p) * (2/3 - t2) * 6
  else p

/-- Source `hslToRgb(h, s, l)` of `parseHSL` (arguments already divided by
360/100/100), with the final `Math.round(_ * 255)` per channel. -/
def hslToRgb (h sat l : ℚ) : Int × Int × Int :=
  if sat = 0 then (⌊l * 255 + 1/2⌋, ⌊l * 255 + 1/2⌋, ⌊l * 255 + 1/2⌋)
  else
    let q := if l < 1/2 then l * (1 + sat) else l + sat - l * sat
    let p := 2 * l - q
    (⌊hue2rgb p q (h + 1/3) * 255 + 1/2⌋, ⌊hue2rgb p q h * 255 + 1/2⌋,
      ⌊hue2rgb p q (h - 1/3) * 255 + 1/2⌋)

/-- Match `hsla?\((\d+),\s*(\d+)%,\s*(\d+)%(?:,\s*[\d.]+)?\)` at the
start of the input. -/
def matchHSLAt (l : List Char) : Option (Nat × Nat × Nat) := do
  let l ← afterLit l "hsl".data
  let l := match l with
    | 'a' :: r => r
    | _ => l
  let l ← afterLit l "(".data
  let (h, l) ← takeDigits1 l
  let l ← afterLit l ",".data
  let (s, l) ← takeDigits1 (l.dropWhile isJsWs)
  let l ← afterLit l "%".data
  let l ← afterLit l ",".data
  let (lv, l) ← takeDigits1 (l.dropWhile isJsWs)
  let l ← afterLit l "%".data
  let l ← matchOptAlpha l
  let _ ← afterLit l ")".data
  return (h, s, lv)

/-- Unanchored regex search for the `hsl` pattern. -/
def searchHSL : List Char → Option (Nat × Nat × Nat)
  | [] => matchHSLAt []
  | c :: t =>
    match matchHSLAt (c :: t) with
    | some x => some x
    | none => searchHSL t

/-- Source `parseHSL(hslString)`. -/
def parseHSL (hslString : String) : Option (List (Option Int)) :=
  (searchHSL hslString.data).map fun x =>
    let rgb := hslToRgb ((x.1 : ℚ) / 360) ((x.2.1 : ℚ) / 100) ((x.2.2 : ℚ) / 100)
    [some rgb.1, some rgb.2.1, some rgb.2.2]

/-- Source `NAMED_COLORS` table (19 CSS keywords plus `transparent`,
which deliberately maps to white). -/
def NAMED_COLORS : List (String × (Int × Int × Int)) :=
  [("black", (0, 0, 0)), ("white", (255, 255, 255)), ("red", (255, 0, 0)),
   ("green", (0, 128, 0)), ("blue", (0, 0, 255)), ("yellow", (255, 255, 0)),
   ("cyan", (0, 255, 255)), ("magenta", (255, 0, 255)),
   ("silver", (192, 192, 192)), ("gray", (128, 128, 128)),
   ("maroon", (128, 0, 0)), ("olive", (128, 128, 0)), ("lime", (0, 255, 0)),
   ("aqua", (0, 255, 255)), ("teal", (0, 128, 128)), ("navy", (0, 0, 128)),
   ("fuchsia", (255, 0, 255)), ("purple", (128, 0, 128)),
   ("orange", (255, 165, 0)), ("transparent", (255, 255, 255))]

/-- Source `parseNamedColor(colorName)`: lowercase, trim, table lookup. -/
def parseNamedColor (colorName : String) : Option (List (Option Int)) :=
  (NAMED_COLORS.lookup ⟨jsTrim (jsLower colorName).data⟩).map fun x =>
    [some x.1, some x.2.1, some x.2.2]

/-- Source `parseColor(colorString)`: falsy input is `null`; otherwise
trim and dispatch on the `rgb`/`#`/`hsl` prefixes, falling back to the
named-color table. -/
def parseColor (colorString : String) : Option (List (Option Int)) :=
  if colorString = "" then none
  else
    let color : String := ⟨jsTrim colorString.data⟩
    if jsStartsWith color "rgb" then parseRGB color
    else if jsStartsWith color "#" then parseHex color
    else if jsStartsWith color "hsl" then parseHSL color
    else parseNamedColor color

end WCS

namespace WCS

/-! ## Theorems -/

/-- C6: for every pair of colors with channels in `[0, 255]`, the contrast
ratio is symmetric and lies in `[1, 21]`. -/
theorem contrast_ratio_symm_and_bounded (c1 c2 : RGB)
    (h1 : channelsInRange c1) (h2 : channelsInRange c2) :
    getContrastRatio c1 c2 = getContrastRatio c2 c1 ∧
      1 ≤ getContrastRatio c1 c2 ∧ getContrastRatio c1 c2 ≤ 21 := by
  have hlin : ∀ x : ℝ, 0 ≤ x → x ≤ 255 →
      0 ≤ linearizeChannel x ∧ linearizeChannel x ≤ 1 := by
    intro x hx0 hx255
    unfold linearizeChannel
    have hx0' : (0:ℝ) ≤ x / 255 := by positivity
    have hx1' : x / 255 ≤ 1 := by
      rw [div_le_one (by norm_num)]; exact hx255
    by_cases hc : x / 255 ≤ 0.03928
    · rw [if_pos hc]
      refine ⟨by positivity, ?_⟩
      rw [div_le_one (by norm_num)]
      linarith
    · rw [if_neg hc]
      have hb0 : (0:ℝ) ≤ (x / 255 + 0.055) / 1.055 :=
        div_nonneg (by linarith) (by norm_num)
      have hb1 : (x / 255 + 0.055) / 1.055 ≤ 1 := by
        rw [div_le_one (by norm_num)]; linarith
      exact ⟨Real.rpow_nonneg hb0 _, Real.rpow_le_one hb0 hb1 (by norm_num)⟩
  have hlum : ∀ c : RGB, channelsInRange c →
      0 ≤ getLuminance c ∧ getLuminance c ≤ 1 := by
    intro c hc
    obtain ⟨hr0, hr1, hg0, hg1, hb0, hb1⟩ := hc
    obtain ⟨har0, har1⟩ := hlin c.r hr0 hr1
    obtain ⟨hag0, hag1⟩ := hlin c.g hg0 hg1
    obtain ⟨hab0, hab1⟩ := hlin c.b hb0 hb1
    unfold getLuminance
    constructor <;> nlinarith
  obtain ⟨hL10, hL11⟩ := hlum c1 h1
  obtain ⟨hL20, hL21⟩ := hlum c2 h2
  unfold getContrastRatio
  have hmin0 : (0:ℝ) < min (getLuminance c1) (getLuminance c2) + 0.05 := by
    have := le_min hL10 hL20
    linarith
  refine ⟨by rw [max_comm, min_comm], ?_, ?_⟩
  · rw [le_div_iff₀ hmin0]
    have : min (getLuminance c1) (getLuminance c2)
        ≤ max (getLuminance c1) (getLuminance c2) := min_le_max
    linarith
  · rw [div_le_iff₀ hmin0]
    have hmax1 : max (getLuminance c1) (getLuminance c2) ≤ 1 := max_le hL11 hL21
    have hminnn : (0:ℝ) ≤ min (getLuminance c1) (getLuminance c2) :=
      le_min hL10 hL20
    nlinarith

/-- Witness for C6 at black vs. black: both colors have channels in range
and the three conclusions evaluate there. -/
theorem contrast_ratio_symm_and_bounded_witness :
    getContrastRatio ⟨0, 0, 0⟩ ⟨0, 0, 0⟩ = getContrastRatio ⟨0, 0, 0⟩ ⟨0, 0, 0⟩ ∧
      1 ≤ getContrastRatio ⟨0, 0, 0⟩ ⟨0, 0, 0⟩ ∧
      getContrastRatio ⟨0, 0, 0⟩ ⟨0, 0, 0⟩ ≤ 21 :=
  contrast_ratio_symm_and_bounded ⟨0, 0, 0⟩ ⟨0, 0, 0⟩
    (by constructor <;> norm_num) (by constructor <;> norm_num)

/-- C8: the touch-target "too close" guard `distance < 100 ∧ distance < 8`
is equivalent to the single condition `distance < 8`: the 100-pixel bound
is dead. -/
theorem touch_target_guard_equiv (t1 t2 : TouchTarget) :
    tooCloseGuard t1 t2 ↔ tooCloseSpec t1 t2 := by
  unfold tooCloseGuard tooCloseSpec MIN_SPACING
  constructor
  · rintro ⟨-, h⟩; exact h
  · intro h; exact ⟨lt_trans h (by norm_num), h⟩

/-! ### Lemmas on the JS string normalization -/

theorem charToNatOfNat (n : Nat) (h : n < 0xd800) : (Char.ofNat n).toNat = n := by
  unfold Char.ofNat
  rw [dif_pos (Or.inl h)]
  rfl

theorem isJsWsFalseOf (c : Char) (h1 : 33 ≤ c.toNat) (h2 : c.toNat ≤ 122) :
    isJsWs c = false := by
  unfold isJsWs
  simp only [Bool.or_eq_false_iff, beq_eq_false_iff_ne, ne_eq, Bool.and_eq_false_iff,
    decide_eq_false_iff_not, not_le]
  omega

theorem isJsWs_toLower (c : Char) : isJsWs (Char.toLower c) = isJsWs c := by
  unfold Char.toLower
  simp only []
  split
  · next h =>
    rw [isJsWsFalseOf, isJsWsFalseOf] <;>
      first
        | (rw [charToNatOfNat _ (by omega)]; omega)
        | omega
  · rfl

theorem collapseWsAux_map_toLower (p : Bool) (l : List Char) :
    collapseWsAux p (l.map Char.toLower) = (collapseWsAux p l).map Char.toLower := by
  induction l generalizing p with
  | nil => rfl
  | cons c cs ih =>
    simp only [List.map_cons, collapseWsAux, isJsWs_toLower]
    by_cases h : isJsWs c
    · rw [if_pos h, if_pos h]
      by_cases hp : p
      · rw [if_pos hp, if_pos hp, ih]
      · rw [if_neg hp, if_neg hp, ih]
        rfl
    · rw [if_neg h, if_neg h, ih]
      rfl

theorem jsTrim_map_toLower (l : List Char) :
    jsTrim (l.map Char.toLower) = (jsTrim l).map Char.toLower := by
  have hfun : isJsWs ∘ Char.toLower = isJsWs := by
    funext c; exact isJsWs_toLower c
  unfold jsTrim
  rw [List.dropWhile_map, hfun, ← List.map_reverse, List.dropWhile_map, hfun,
    ← List.map_reverse]

theorem collapseWsAux_wsRun (ws rest : List Char) (hne : ws ≠ [])
    (hws : ∀ c ∈ ws, isJsWs c = true) (p : Bool) :
    collapseWsAux p (ws ++ rest) =
      if p then collapseWsAux true rest else ' ' :: collapseWsAux true rest := by
  induction ws generalizing p with
  | nil => exact absurd rfl hne
  | cons c cs ih =>
    have hc : isJsWs c = true := hws c (List.mem_cons_self c cs)
    have hrec : collapseWsAux true (cs ++ rest) = collapseWsAux true rest := by
      by_cases hcs : cs = []
      · subst hcs; rfl
      · have h := ih hcs (fun e he => hws e (List.mem_cons_of_mem c he)) true
        simpa using h
    simp only [List.cons_append, collapseWsAux, hc, if_true, List.append_eq, hrec]

theorem collapseWsAux_wsRun_congr (ws1 ws2 : List Char) (h1 : ws1 ≠ [])
    (h2 : ws2 ≠ []) (hw1 : ∀ c ∈ ws1, isJsWs c = true)
    (hw2 : ∀ c ∈ ws2, isJsWs c = true) (a b : List Char) (p : Bool) :
    collapseWsAux p (a ++ ws1 ++ b) = collapseWsAux p (a ++ ws2 ++ b) := by
  induction a generalizing p with
  | nil =>
    simp only [List.nil_append]
    rw [collapseWsAux_wsRun ws1 b h1 hw1 p, collapseWsAux_wsRun ws2 b h2 hw2 p]
  | cons c cs ih =>
    simp only [List.cons_append, collapseWsAux, List.append_eq]
    have ihp := ih true
    have ihf := ih false
    simp only [List.append_eq, List.append_assoc] at ihp ihf
    by_cases hc : isJsWs c = true
    · simp [hc, ihp]
    · simp [hc, ihf]

theorem jsNorm_eq_of_map_toLower {t1 t2 : String}
    (h : t1.data.map Char.toLower = t2.data.map Char.toLower) :
    jsNorm t1 = jsNorm t2 := by
  unfold jsNorm collapseWs
  have key : ∀ s : String, (jsTrim (collapseWsAux false s.data)).map Char.toLower
      = jsTrim (collapseWsAux false (s.data.map Char.toLower)) := by
    intro s
    rw [collapseWsAux_map_toLower, jsTrim_map_toLower]
  rw [String.ext_iff]
  show (jsTrim (collapseWsAux false t1.data)).map Char.toLower
      = (jsTrim (collapseWsAux false t2.data)).map Char.toLower
  rw [key t1, key t2, h]

theorem jsNorm_wsRun (ws1 ws2 : List Char) (h1 : ws1 ≠ []) (h2 : ws2 ≠ [])
    (hw1 : ∀ c ∈ ws1, isJsWs c = true) (hw2 : ∀ c ∈ ws2, isJsWs c = true)
    (a b : List Char) : jsNorm ⟨a ++ ws1 ++ b⟩ = jsNorm ⟨a ++ ws2 ++ b⟩ := by
  unfold jsNorm collapseWs
  rw [String.ext_iff]
  show (jsTrim (collapseWsAux false (a ++ ws1 ++ b))).map Char.toLower
      = (jsTrim (collapseWsAux false (a ++ ws2 ++ b))).map Char.toLower
  rw [collapseWsAux_wsRun_congr ws1 ws2 h1 h2 hw1 hw2 a b false]

theorem makeId_congr {u1 u2 c1 c2 y1 y2 s1 s2 t1 t2 : String}
    (hu : jsNorm u1 = jsNorm u2) (hc : jsNorm c1 = jsNorm c2)
    (hy : jsNorm y1 = jsNorm y2) (hs : jsNorm s1 = jsNorm s2)
    (ht : jsNorm t1 = jsNorm t2) :
    makeId u1 c1 y1 s1 t1 = makeId u2 c2 y2 s2 t2 := by
  unfold makeId
  rw [hu, hc, hy, hs, ht]

/-- C1 (amended): the stable-ID assigner is a function of the
whitespace-collapsed, trimmed, lowercased `(url, category, type, selector,
text)` tuple: equal normalized tuples give equal 8-hex-character IDs, and
in particular letter-case changes and whitespace-run changes in any
component leave the ID unchanged; the ID is always 8 characters drawn
from `0-9a-f`.  (Zero-width characters such as U+200B are not stripped by
the normalization and do change the ID — see the counterexample.) -/
theorem stable_id_normalization :
    (∀ u1 u2 c1 c2 y1 y2 s1 s2 t1 t2 : String,
        jsNorm u1 = jsNorm u2 → jsNorm c1 = jsNorm c2 → jsNorm y1 = jsNorm y2 →
        jsNorm s1 = jsNorm s2 → jsNorm t1 = jsNorm t2 →
        makeId u1 c1 y1 s1 t1 = makeId u2 c2 y2 s2 t2) ∧
    (∀ u c y s : String, ∀ t1 t2 : String,
        t1.data.map Char.toLower = t2.data.map Char.toLower →
        makeId u c y s t1 = makeId u c y s t2) ∧
    (∀ u c y s : String, ∀ a ws1 ws2 b : List Char, ws1 ≠ [] → ws2 ≠ [] →
        (∀ ch ∈ ws1, isJsWs ch = true) → (∀ ch ∈ ws2, isJsWs ch = true) →
        makeId u c y s ⟨a ++ ws1 ++ b⟩ = makeId u c y s ⟨a ++ ws2 ++ b⟩) ∧
    (∀ u c y s t : String, (makeId u c y s t).data.length = 8 ∧
        ∀ ch ∈ (makeId u c y s t).data,
          (48 ≤ ch.toNat ∧ ch.toNat ≤ 57) ∨ (97 ≤ ch.toNat ∧ ch.toNat ≤ 102)) := by
  refine ⟨fun _ _ _ _ _ _ _ _ _ _ hu hc hy hs ht => makeId_congr hu hc hy hs ht,
    fun u c y s t1 t2 h => makeId_congr rfl rfl rfl rfl (jsNorm_eq_of_map_toLower h),
    fun u c y s a ws1 ws2 b h1 h2 hw1 hw2 =>
      makeId_congr rfl rfl rfl rfl (jsNorm_wsRun ws1 ws2 h1 h2 hw1 hw2 a b),
    fun u c y s t => ?_⟩
  unfold makeId stableHash toHex8
  constructor
  · simp
  · intro ch hch
    simp only [List.mem_map, List.mem_range] at hch
    obtain ⟨i, -, rfl⟩ := hch
    have hlt : toUint32 (djb2 (utf16Codes (String.intercalate "|"
        [jsNorm u, jsNorm c, jsNorm y, jsNorm s, jsNorm t]).data)) / 16 ^ (7 - i) % 16
        < 16 := Nat.mod_lt _ (by norm_num)
    unfold hexDigit
    by_cases h10 : toUint32 (djb2 (utf16Codes (String.intercalate "|"
        [jsNorm u, jsNorm c, jsNorm y, jsNorm s, jsNorm t]).data)) / 16 ^ (7 - i) % 16
        < 10
    · rw [if_pos h10, charToNatOfNat _ (by omega)]
      omega
    · rw [if_neg h10, charToNatOfNat _ (by omega)]
      omega

set_option maxRecDepth 100000 in
/-- C1 counterexample: two findings whose `text` differs only by a
zero-width space (U+200B) receive different IDs — the normalization does
not strip zero-width characters. -/
theorem stable_id_zero_width_counterexample :
    makeId "https://e.com/" "images" "missing_alt" "img" "ab"
      ≠ makeId "https://e.com/" "images" "missing_alt" "img" "a​b" := by
  decide

set_option maxRecDepth 100000 in
/-- Witness for C1: concrete findings differing only in letter case and in
a whitespace run receive identical IDs. -/
theorem stable_id_normalization_witness :
    makeId "https://e.com/" "images" "missing_alt" "img" "Logo  Image"
        = makeId "https://e.com/" "images" "missing_alt" "img" "logo  image" ∧
      makeId "https://e.com/" "images" "missing_alt" "img"
          ⟨"logo".data ++ [' '] ++ "image".data⟩
        = makeId "https://e.com/" "images" "missing_alt" "img"
          ⟨"logo".data ++ ['\t', ' '] ++ "image".data⟩ :=
  ⟨stable_id_normalization.2.1 "https://e.com/" "images" "missing_alt" "img"
      "Logo  Image" "logo  image" (by decide),
    stable_id_normalization.2.2.1 "https://e.com/" "images" "missing_alt" "img"
      "logo".data [' '] ['\t', ' '] "image".data (by decide) (by decide)
      (by decide) (by decide)⟩

/-! ### Suppression-engine theorems -/

theorem jsLower_ne_empty {s : String} (h : s ≠ "") : jsLower s ≠ "" := by
  intro hc
  apply h
  unfold jsLower at hc
  rw [String.ext_iff] at hc ⊢
  simpa using hc

/-- C3: under any URL-parser behavior, a non-expired rule with a set `id`
that equals the finding's id case-insensitively suppresses the finding,
wherever it sits in the rule list and whatever its other fields say. -/
theorem id_match_suppresses (parse : String → Option URLRec)
    (rules : List IgnoreRule) (r : IgnoreRule)
    (issue : IssueRec) (now : Int) (hmem : r ∈ rules)
    (hexp : isExpired r.expires now = false) (hid : r.id ≠ "")
    (hlow : jsLower r.id = jsLower issue.id) :
    shouldIgnore parse issue rules now = true := by
  induction rules with
  | nil => cases hmem
  | cons head rest ih =>
    rcases List.mem_cons.mp hmem with heq | hmem'
    · subst heq
      have hiid : issue.id ≠ "" := by
        intro hc
        apply jsLower_ne_empty hid
        rw [hlow, hc]; rfl
      have hmatch : idMatchOk r issue = true := by
        unfold idMatchOk
        simp [hid, hiid, hlow]
      simp [shouldIgnore, hexp, hmatch]
    · have h := ih hmem'
      simp only [shouldIgnore]
      split_ifs <;> simp [h]

/-- Witness for C3: a rule whose scope, pattern, category, type, severity
ceiling, selector and text filter all mismatch the finding still
suppresses it on a case-insensitive id match. -/
theorem id_match_suppresses_witness :
    shouldIgnore parseURLModel
        { id := "abcdef12", url := "", category := "c", type := "t",
          severity := "critical", selector := "s", text := "m" }
        [{ id := "ABCDEF12", scope := "url", pattern := "zzz", category := "x",
           type := "y", severityAtMost := "low", selector := "q",
           textIncludes := "w" }] 0 = true :=
  id_match_suppresses parseURLModel _ _ _ 0 (List.mem_singleton_self _)
    (by decide) (by decide) (by decide)

/-- C9: when a finding's severity is absent/empty, a rule's severity
ceiling is evaluated against the default `medium`: with all other checks
of the rule passing, the finding is suppressed exactly when the ceiling is
`medium`, `high` or `critical` — not `low`. -/
theorem missing_severity_defaults_medium (parse : String → Option URLRec)
    (r : IgnoreRule) (issue : IssueRec)
    (now : Int) (hexp : isExpired r.expires now = false)
    (hid : idMatchOk r issue = false)
    (hurl : urlMatches parse r issue.url = true)
    (hcat : catOk r issue = true) (hty : typeOk r issue = true)
    (hsel : selOk r issue = true) (htext : textOk r issue = true)
    (hsev : issue.severity = "")
    (hceil : r.severityAtMost = "low" ∨ r.severityAtMost = "medium" ∨
        r.severityAtMost = "high" ∨ r.severityAtMost = "critical") :
    shouldIgnore parse issue [r] now = true ↔
      (r.severityAtMost = "medium" ∨ r.severityAtMost = "high" ∨
        r.severityAtMost = "critical") := by
  have hmain : shouldIgnore parse issue [r] now = sevOk r issue := by
    cases hs : sevOk r issue <;>
      simp [shouldIgnore, hexp, hid, hurl, hcat, hty, hsel, htext, hs]
  rw [hmain]
  unfold sevOk
  rw [hsev]
  rcases hceil with h | h | h | h <;> rw [h] <;> simp [sevOrder, jsLeOpt]

/-- Witness for C9: a severity-less finding is suppressed by an otherwise
all-matching rule with ceiling `high` and not by the same rule with
ceiling `low`. -/
theorem missing_severity_defaults_medium_witness :
    shouldIgnore parseURLModel { url := "http://e.com/", severity := "" }
        [{ scope := "global", severityAtMost := "high" }] 0 = true ∧
      shouldIgnore parseURLModel { url := "http://e.com/", severity := "" }
        [{ scope := "global", severityAtMost := "low" }] 0 = false := by
  constructor
  · exact (missing_severity_defaults_medium parseURLModel _ _ 0 (by decide)
      (by decide) (by decide) (by decide) (by decide) (by decide) (by decide)
      rfl (Or.inr (Or.inr (Or.inl rfl)))).mpr (Or.inr (Or.inl rfl))
  · have h2 := missing_severity_defaults_medium parseURLModel
      ({ scope := "global", severityAtMost := "low" })
      ({ url := "http://e.com/", severity := "" }) 0 (by decide) (by decide)
      (by decide) (by decide) (by decide) (by decide) (by decide) rfl
      (Or.inl rfl)
    cases hb : shouldIgnore parseURLModel { url := "http://e.com/", severity := "" }
        [{ scope := "global", severityAtMost := "low" }] 0 with
    | false => rfl
    | true =>
      rcases h2.mp hb with h | h | h <;> exact absurd h (by decide)

/-! ### Summary theorems -/

theorem tallyIssue_shift (a b : Tally) (i : CatIssue) :
    tallyIssue (tAdd a b) i = tAdd a (tallyIssue b i) := by
  unfold tallyIssue tAdd
  split_ifs <;> simp <;> omega

theorem foldl_tallyIssue_shift (l : List CatIssue) (a b : Tally) :
    l.foldl tallyIssue (tAdd a b) = tAdd a (l.foldl tallyIssue b) := by
  induction l generalizing b with
  | nil => rfl
  | cons i t ih => simp only [List.foldl_cons, tallyIssue_shift, ih]

theorem tallyCombo_shift (a b : Tally) (c : ContrastCombo) :
    tallyCombo (tAdd a b) c = tAdd a (tallyCombo b c) := by
  unfold tallyCombo tAdd
  split_ifs <;> simp <;> omega

theorem foldl_tallyCombo_shift (l : List ContrastCombo) (a b : Tally) :
    l.foldl tallyCombo (tAdd a b) = tAdd a (l.foldl tallyCombo b) := by
  induction l generalizing b with
  | nil => rfl
  | cons c t ih => simp only [List.foldl_cons, tallyCombo_shift, ih]

theorem tallyCategory_shift (a b : Tally) (nc : String × Option (List CatIssue)) :
    tallyCategory (tAdd a b) nc = tAdd a (tallyCategory b nc) := by
  unfold tallyCategory
  cases nc.2 with
  | none => rfl
  | some issues => exact foldl_tallyIssue_shift issues a b

theorem foldl_tallyCategory_shift (l : List (String × Option (List CatIssue)))
    (a b : Tally) :
    l.foldl tallyCategory (tAdd a b) = tAdd a (l.foldl tallyCategory b) := by
  induction l generalizing b with
  | nil => rfl
  | cons nc t ih => simp only [List.foldl_cons, tallyCategory_shift, ih]

theorem foldl_tallyIssue_filter (l : List CatIssue) (acc : Tally) :
    (l.filter fun i => !i.ignored).foldl tallyIssue acc = l.foldl tallyIssue acc := by
  induction l generalizing acc with
  | nil => rfl
  | cons i t ih =>
    by_cases hi : i.ignored
    · simp [List.filter_cons, hi, tallyIssue, ih]
    · simp [List.filter_cons, hi, ih]

theorem foldl_tallyCombo_filter (l : List ContrastCombo) (acc : Tally)
    (hinv : ∀ c ∈ l, c.ignored = true → c.status = "FAIL") :
    (l.filter fun c => !c.ignored).foldl tallyCombo acc = l.foldl tallyCombo acc := by
  induction l generalizing acc with
  | nil => rfl
  | cons c t ih =>
    have ht : ∀ d ∈ t, d.ignored = true → d.status = "FAIL" := fun d hd =>
      hinv d (List.mem_cons_of_mem c hd)
    by_cases hi : c.ignored
    · have hf : c.status = "FAIL" := hinv c (List.mem_cons_self c t) hi
      simp [List.filter_cons, hi, tallyCombo, hf, ih _ ht]
    · simp [List.filter_cons, hi, ih _ ht]

theorem foldl_tallyCategory_dropIgnored
    (cats : List (String × Option (List CatIssue))) (acc : Tally) :
    (cats.map fun nc =>
        (nc.1, nc.2.map fun issues => issues.filter fun i => !i.ignored)).foldl
        tallyCategory acc
      = cats.foldl tallyCategory acc := by
  induction cats generalizing acc with
  | nil => rfl
  | cons nc t ih =>
    simp only [List.map_cons, List.foldl_cons]
    rw [ih]
    congr 1
    unfold tallyCategory
    cases h : nc.2 with
    | none => simp [h]
    | some issues => simp [h, foldl_tallyIssue_filter]

theorem applyIgnoreRules_combo_invariant (parse : String → Option URLRec)
    (pageUrl : String)
    (rules : List IgnoreRule) (now : Int) (r0 : AuditResults)
    (h0 : ∀ c ∈ r0.colorContrast, c.ignored = false) :
    ∀ c ∈ (applyIgnoreRules parse pageUrl rules now r0).colorContrast,
      c.ignored = true → c.status = "FAIL" := by
  intro c hc hig
  simp only [applyIgnoreRules, List.mem_map] at hc
  obtain ⟨d, hd, hdc⟩ := hc
  by_cases hs : d.status == "FAIL"
  · by_cases hsi : shouldIgnore parse (comboNorm pageUrl d) rules now
    · rw [if_pos hs, if_pos hsi] at hdc
      rw [← hdc]
      exact eq_of_beq hs
    · rw [if_pos hs, if_neg hsi] at hdc
      rw [← hdc] at hig
      exact absurd hig (by simp [h0 d hd])
  · rw [if_neg hs] at hdc
    rw [← hdc] at hig
    exact absurd hig (by simp [h0 d hd])

theorem complianceLevel_iff (t : Tally) :
    ((if t.criticalIssues == 0 then ("WCAG AA Compliant" : String)
        else "Needs Improvement") = "WCAG AA Compliant") ↔
      t.criticalIssues = 0 := by
  by_cases h : t.criticalIssues = 0
  · simp [h]
  · have hb : (t.criticalIssues == 0) = false := by simpa using h
    simp [hb, h]

/-- C2: after the suppression pass (under any URL-parser behavior) marks
a fresh audit state, the summary equals the summary of the state with
every suppressed finding removed (a suppressed finding contributes to
none of the four counters), and `complianceLevel` reports compliant
exactly when `criticalIssues = 0`. -/
theorem summary_counts_only_unsuppressed (parse : String → Option URLRec)
    (pageUrl : String)
    (rules : List IgnoreRule) (now : Int) (r0 : AuditResults)
    (h0 : noIgnoredFlags r0) :
    calculateSummary (applyIgnoreRules parse pageUrl rules now r0)
        = calculateSummary
            (dropIgnored (applyIgnoreRules parse pageUrl rules now r0)) ∧
      ∀ r : AuditResults,
        ((calculateSummary r).complianceLevel = "WCAG AA Compliant" ↔
          (calculateSummary r).criticalIssues = 0) := by
  constructor
  · have hinv := applyIgnoreRules_combo_invariant parse pageUrl rules now r0 h0.2
    unfold calculateSummary dropIgnored
    simp only []
    rw [foldl_tallyCategory_dropIgnored,
      foldl_tallyCombo_filter _ _ hinv]
  · intro r
    unfold calculateSummary
    simp only []
    exact complianceLevel_iff _

/-- Witness for C2: a concrete fresh state with one critical issue, one
suppressed-by-rule critical issue and one low issue. -/
theorem summary_counts_only_unsuppressed_witness :
    calculateSummary (applyIgnoreRules parseURLModel "http://e.com/"
          [{ scope := "global", category := "semanticHTML" }] 0
          ⟨[("semanticHTML", some [{ severity := "critical" }]),
            ("images", none)], none,
            [{ status := "PASS" }]⟩)
        = calculateSummary (dropIgnored (applyIgnoreRules parseURLModel
          "http://e.com/"
          [{ scope := "global", category := "semanticHTML" }] 0
          ⟨[("semanticHTML", some [{ severity := "critical" }]),
            ("images", none)], none,
            [{ status := "PASS" }]⟩)) ∧
      ∀ r : AuditResults,
        ((calculateSummary r).complianceLevel = "WCAG AA Compliant" ↔
          (calculateSummary r).criticalIssues = 0) :=
  summary_counts_only_unsuppressed parseURLModel "http://e.com/"
    [{ scope := "global", category := "semanticHTML" }] 0
    ⟨[("semanticHTML", some [{ severity := "critical" }]),
      ("images", none)], none, [{ status := "PASS" }]⟩
    (by constructor
        · intro nc hnc l hl i hi
          fin_cases hnc
          · simp_all
            subst hl
            simp_all
          · simp_all
        · intro c hc
          fin_cases hc
          rfl)

theorem tallyIssue_eq_tAdd (b : Tally) (i : CatIssue) :
    tallyIssue b i = tAdd (tallyIssue ⟨0, 0, 0, 0⟩ i) b := by
  unfold tallyIssue tAdd
  split_ifs <;> simp <;> omega

theorem tally_insert (cs1 cs2 : List (String × Option (List CatIssue)))
    (name : String) (pre post : List CatIssue) (combos : List ContrastCombo)
    (i : CatIssue) :
    combos.foldl tallyCombo
        ((cs1 ++ (name, some (pre ++ i :: post)) :: cs2).foldl tallyCategory
          ⟨0, 0, 0, 0⟩)
      = tAdd (tallyIssue ⟨0, 0, 0, 0⟩ i)
          (combos.foldl tallyCombo
            ((cs1 ++ (name, some (pre ++ post)) :: cs2).foldl tallyCategory
              ⟨0, 0, 0, 0⟩)) := by
  rw [List.foldl_append, List.foldl_append, List.foldl_cons, List.foldl_cons]
  have hmid : ∀ L : List CatIssue, ∀ acc : Tally,
      tallyCategory acc (name, some L) = L.foldl tallyIssue acc := fun L acc => rfl
  rw [hmid, hmid, List.foldl_append, List.foldl_append, List.foldl_cons,
    tallyIssue_eq_tAdd, foldl_tallyIssue_shift, foldl_tallyCategory_shift,
    foldl_tallyCombo_shift]

/-- C10: inserting one non-ignored finding of severity `low` into any
category raises `totalIssues` and `passes` by one and leaves `warnings`
and `criticalIssues` unchanged (so `passes` grows with low-severity
findings), while inserting one of severity `medium` or `high` raises
`totalIssues` and `warnings` by one instead. -/
theorem low_severity_counts_as_pass
    (cs1 cs2 : List (String × Option (List CatIssue))) (name : String)
    (pre post : List CatIssue) (mr : Option (List CatIssue))
    (combos : List ContrastCombo) (i : CatIssue) (hni : i.ignored = false) :
    (i.severity = "low" →
      (calculateSummary ⟨cs1 ++ (name, some (pre ++ i :: post)) :: cs2, mr, combos⟩).totalIssues
          = (calculateSummary ⟨cs1 ++ (name, some (pre ++ post)) :: cs2, mr, combos⟩).totalIssues + 1 ∧
        (calculateSummary ⟨cs1 ++ (name, some (pre ++ i :: post)) :: cs2, mr, combos⟩).passes
          = (calculateSummary ⟨cs1 ++ (name, some (pre ++ post)) :: cs2, mr, combos⟩).passes + 1 ∧
        (calculateSummary ⟨cs1 ++ (name, some (pre ++ i :: post)) :: cs2, mr, combos⟩).warnings
          = (calculateSummary ⟨cs1 ++ (name, some (pre ++ post)) :: cs2, mr, combos⟩).warnings ∧
        (calculateSummary ⟨cs1 ++ (name, some (pre ++ i :: post)) :: cs2, mr, combos⟩).criticalIssues
          = (calculateSummary ⟨cs1 ++ (name, some (pre ++ post)) :: cs2, mr, combos⟩).criticalIssues) ∧
    ((i.severity = "medium" ∨ i.severity = "high") →
      (calculateSummary ⟨cs1 ++ (name, some (pre ++ i :: post)) :: cs2, mr, combos⟩).totalIssues
          = (calculateSummary ⟨cs1 ++ (name, some (pre ++ post)) :: cs2, mr, combos⟩).totalIssues + 1 ∧
        (calculateSummary ⟨cs1 ++ (name, some (pre ++ i :: post)) :: cs2, mr, combos⟩).warnings
          = (calculateSummary ⟨cs1 ++ (name, some (pre ++ post)) :: cs2, mr, combos⟩).warnings + 1 ∧
        (calculateSummary ⟨cs1 ++ (name, some (pre ++ i :: post)) :: cs2, mr, combos⟩).passes
          = (calculateSummary ⟨cs1 ++ (name, some (pre ++ post)) :: cs2, mr, combos⟩).passes ∧
        (calculateSummary ⟨cs1 ++ (name, some (pre ++ i :: post)) :: cs2, mr, combos⟩).criticalIssues
          = (calculateSummary ⟨cs1 ++ (name, some (pre ++ post)) :: cs2, mr, combos⟩).criticalIssues) := by
  have hins := tally_insert cs1 cs2 name pre post combos i
  constructor
  · intro hsev
    have hδ : tallyIssue ⟨0, 0, 0, 0⟩ i = ⟨1, 0, 0, 1⟩ := by
      simp [tallyIssue, hni, hsev]
    rw [hδ] at hins
    simp only [calculateSummary, hins, tAdd]
    refine ⟨by omega, by omega, by omega, by omega⟩
  · intro hsev
    have hδ : tallyIssue ⟨0, 0, 0, 0⟩ i = ⟨1, 0, 1, 0⟩ := by
      rcases hsev with h | h <;> simp [tallyIssue, hni, h]
    rw [hδ] at hins
    simp only [calculateSummary, hins, tAdd]
    refine ⟨by omega, by omega, by omega, by omega⟩

/-! ### Effective-background theorems -/

theorem bgWalk_none_iff (chain : List ElemStyle) :
    ∀ (fuel : Nat) (acc : RGBA), bgWalk chain acc fuel = none ↔
      ∃ e ∈ bgVisited chain acc fuel, e.hasBgImage = true := by
  induction chain with
  | nil =>
    intro fuel acc
    cases fuel <;> simp [bgWalk, bgVisited]
  | cons e rest ih =>
    intro fuel acc
    cases fuel with
    | zero => simp [bgWalk, bgVisited]
    | succ f =>
      by_cases himg : e.hasBgImage
      · simp [bgWalk, bgVisited, himg]
      · cases hbg : e.bgColor with
        | some bg =>
          by_cases hbreak : 999/1000 ≤ (blend bg acc).a
          · simp [bgWalk, bgVisited, himg, hbg, hbreak]
          · simp [bgWalk, bgVisited, himg, hbg, hbreak, ih]
        | none => simp [bgWalk, bgVisited, himg, hbg, ih]

/-- C5: the resolver returns no result exactly when a visited element of
the bounded walk (the element itself included) has a non-`none`
background image; any returned color is fully opaque (`a = 1`); and when
the walk ends below the `0.999` opacity threshold the returned color is
the accumulator composited over the body-over-html page background, each
defaulting to white. -/
theorem effective_background_spec (chain : List ElemStyle)
    (htmlBg bodyBg : Option RGBA) :
    (getEffectiveBackground chain htmlBg bodyBg = none ↔
      ∃ e ∈ bgVisited chain ⟨0, 0, 0, 0⟩ 30, e.hasBgImage = true) ∧
    (∀ c, getEffectiveBackground chain htmlBg bodyBg = some c → c.a = 1) ∧
    (∀ acc, bgWalk chain ⟨0, 0, 0, 0⟩ 30 = some acc → acc.a < 999/1000 →
      getEffectiveBackground chain htmlBg bodyBg =
        some { blend acc (blend (bodyBg.getD whiteRGBA) (htmlBg.getD whiteRGBA))
                with a := 1 }) := by
  refine ⟨?_, ?_, ?_⟩
  · unfold getEffectiveBackground
    cases hw : bgWalk chain ⟨0, 0, 0, 0⟩ 30 with
    | none =>
      simpa using (bgWalk_none_iff chain 30 ⟨0, 0, 0, 0⟩).mp hw
    | some acc =>
      have hns := (bgWalk_none_iff chain 30 ⟨0, 0, 0, 0⟩).not
      rw [hw] at hns
      simp only [reduceCtorEq, false_iff] at hns
      simp only [not_exists, not_and] at hns
      constructor
      · intro hc
        exact absurd hc (by simp)
      · intro ⟨e, he, himg⟩
        exact absurd himg (by simpa using hns.mp (by simp) e he)
  · intro c hc
    unfold getEffectiveBackground at hc
    cases hw : bgWalk chain ⟨0, 0, 0, 0⟩ 30 with
    | none => rw [hw] at hc; cases hc
    | some acc =>
      rw [hw] at hc
      simp only [Option.some.injEq] at hc
      rw [← hc]
  · intro acc hw hlt
    unfold getEffectiveBackground
    rw [hw]
    simp [hlt]

/-- Witness for C5: an element with a background image yields no result;
the empty chain yields opaque white; an all-transparent walk composites
the default-white page background. -/
theorem effective_background_spec_witness :
    getEffectiveBackground [⟨true, none⟩] none none = none ∧
      whiteRGBA.a = 1 ∧
      getEffectiveBackground [] none none =
        some { blend ⟨0, 0, 0, 0⟩
                (blend (Option.getD none whiteRGBA) (Option.getD none whiteRGBA))
              with a := 1 } :=
  ⟨(effective_background_spec [⟨true, none⟩] none none).1.mpr
      ⟨⟨true, none⟩, by simp [bgVisited], rfl⟩,
    (effective_background_spec [] none none).2.1 whiteRGBA
      (by norm_num [getEffectiveBackground, bgWalk, blend, clamp01, jsRound,
        whiteRGBA]),
    (effective_background_spec [] none none).2.2 ⟨0, 0, 0, 0⟩ rfl (by norm_num)⟩

/-! ### Color-parser theorems -/

set_option maxRecDepth 10000 in
/-- C7 (the code evaluated at the failing input): on the unrecognized
input `"#zzz"` — a `#`-prefixed string whose remaining characters are not
hex digits — `parseColor` does not yield `null`: `parseHex` sees length 3
and returns an array whose three channels are `NaN` (JS
`parseInt('zz', 16)`), contradicting both the spec and the function's own
documentation ("null if invalid"). -/
theorem parseColor_invalid_hex_not_null :
    parseColor "#zzz" = some [none, none, none] ∧ parseColor "#zzz" ≠ none := by
  constructor
  · decide
  · decide

/-- Witness for C10: one concrete low-severity finding bumps `totalIssues`
and `passes`. -/
theorem low_severity_counts_as_pass_witness :
    (calculateSummary ⟨[("touchTargets", some [{ severity := "low" }])], none, []⟩).totalIssues
        = (calculateSummary ⟨[("touchTargets", some [])], none, []⟩).totalIssues + 1 ∧
      (calculateSummary ⟨[("touchTargets", some [{ severity := "low" }])], none, []⟩).passes
        = (calculateSummary ⟨[("touchTargets", some [])], none, []⟩).passes + 1 ∧
      (calculateSummary ⟨[("touchTargets", some [{ severity := "low" }])], none, []⟩).warnings
        = (calculateSummary ⟨[("touchTargets", some [])], none, []⟩).warnings ∧
      (calculateSummary ⟨[("touchTargets", some [{ severity := "low" }])], none, []⟩).criticalIssues
        = (calculateSummary ⟨[("touchTargets", some [])], none, []⟩).criticalIssues :=
  (low_severity_counts_as_pass [] [] "touchTargets" [] [] none []
    { severity := "low" } rfl).1 rfl

end WCS
